import Mathlib

/-!
# Nuklear adapter of ignix (`src/third_party/src/nuklear/nuklear.cpp`)

A shallow embedding of the adapter between the Nuklear GUI library and the
ignix renderer: the allocator shim (`nkAlloc`, `nkFree`), the per-frame buffer
manager (`GUI::bakePrimitives`), the draw translator (`GUI::draw`) and the
input forwarder (`GUI::onInputUpdate`).

Conventions.
* `usz` values are naturals reduced modulo `2 ^ 64`; `nk_draw_index` and `u16`
  values are naturals reduced modulo `2 ^ 16`.
* Calls into the graphics API, the host allocator and the Nuklear input API are
  external; each call is recorded as an event in the state that is passed along.
* The result of `nk_convert` (draw commands, vertex and index staging buffers)
  is an input of the model.
-/

namespace igx

/-! ## Machine integers -/

/-- Number of values of `usz` (64-bit `size_t`). -/
def USZ_MOD : Nat := 2 ^ 64

/-- Number of values of `u16` and of `nk_draw_index` (`NK_UINT_DRAW_INDEX` is not defined). -/
def U16_MOD : Nat := 2 ^ 16

/-- The literal `1_MiB`. -/
def MiB : Nat := 1048576

/-! ## Graphics resources -/

/-- The two kinds of buffer the adapter creates (`GPUBufferType::VERTEX`, `GPUBufferType::INDEX`). -/
inductive GPUBufferType where
  | VERTEX
  | INDEX
  deriving DecidableEq, Repr

/-- A created `GPUBuffer`: the handle the graphics API gave it, its type, its
capacity in bytes (`size()`) and its CPU-visible memory (byte at each offset). -/
structure GPUBuffer where
  handle : Nat
  type : GPUBufferType
  size : Nat
  bytes : Nat → Nat

/-- A created `PrimitiveBuffer`: its own handle and the handles of the vertex and
index buffer it binds. -/
structure PrimitiveBuffer where
  handle : Nat
  vbo : Nat
  ibo : Nat
  deriving DecidableEq, Repr

/-- Calls into the graphics API made by the adapter. -/
inductive GfxEvent where
  | releaseBuffer (handle : Nat)
  | createBuffer (handle : Nat) (type : GPUBufferType) (size : Nat)
  | flush (handle : Nat) (offset : Nat) (size : Nat)
  | releasePrimitiveBuffer (handle : Nat)
  | createPrimitiveBuffer (handle : Nat) (vbo : Nat) (ibo : Nat)
  deriving DecidableEq, Repr

/-- The graphics device `Graphics &g`: the next fresh resource handle and the
calls received so far (oldest first). -/
structure Graphics where
  nextHandle : Nat
  events : List GfxEvent
  deriving DecidableEq, Repr

/-! ## Nuklear data -/

/-- The fields of `nk_buffer` the adapter reads: `needed` and the bytes at `memory.ptr`. -/
structure nk_buffer where
  needed : Nat
  memory : Nat → Nat

/-- A clip rectangle `struct nk_rect`; each field is the value of a finite `float`. -/
structure nk_rect where
  x : ℚ
  y : ℚ
  w : ℚ
  h : ℚ
  deriving DecidableEq

/-- The fields of `nk_draw_command` the adapter reads. -/
structure nk_draw_command where
  elem_count : Nat
  clip_rect : nk_rect
  deriving DecidableEq

/-- What `nk_convert` produced for one frame. -/
structure Converted where
  drawCommands : List nk_draw_command
  verts : nk_buffer
  idx : nk_buffer

/-- The fields of `GUI::Data` used by `bakePrimitives` and `draw`. -/
structure Data where
  ibo : Option GPUBuffer
  vbo : Option GPUBuffer
  primitiveBuffer : Option PrimitiveBuffer
  drawCommands : List nk_draw_command

/-- The state after `initData`: no buffer, no binding, no draw commands. -/
def Data.init : Data :=
  { ibo := none, vbo := none, primitiveBuffer := none, drawCommands := [] }

/-! ## `GUI::bakePrimitives` -/

/-- The bytes of a destination after `std::memcpy(dst, src, n)`. -/
def memcpy (dst src : Nat → Nat) (n : Nat) : Nat → Nat :=
  fun i => if i < n then src i else dst i

/-- The call `GPUBuffer::release()` on a buffer reference: an existing buffer is released. -/
def releaseBuffer (b : Option GPUBuffer) (g : Graphics) : Graphics :=
  match b with
  | none => g
  | some buf => { g with events := g.events ++ [GfxEvent.releaseBuffer buf.handle] }

/-- The call `PrimitiveBuffer::release()` on a binding reference. -/
def releasePrimitiveBuffer (p : Option PrimitiveBuffer) (g : Graphics) : Graphics :=
  match p with
  | none => g
  | some pb => { g with events := g.events ++ [GfxEvent.releasePrimitiveBuffer pb.handle] }

/-- The capacity computed on the resize path (lines 206-211 and 235-240):
`newSize = max(needed * 2, 1_MiB)`, then rounded up to the stride when
`newSize % stride` is non-zero. All arithmetic is on `usz`. -/
def newSize (stride needed : Nat) : Nat :=
  let newSize := max (needed * 2 % USZ_MOD) MiB
  if newSize % stride ≠ 0 then (newSize / stride + 1) % USZ_MOD * stride % USZ_MOD else newSize

/-- Construction of a `GPUBuffer` from `GPUBuffer::Info(size, type, CPU_WRITE)`
whose `initData` (taken as zero-filled) received the first `needed` staging bytes;
the device hands out the next fresh handle. -/
def createBuffer (type : GPUBufferType) (size : Nat) (staging : nk_buffer) (g : Graphics) :
    GPUBuffer × Graphics :=
  ({ handle := g.nextHandle, type := type, size := size,
     bytes := memcpy (fun _ => 0) staging.memory staging.needed },
   { nextHandle := g.nextHandle + 1,
     events := g.events ++ [GfxEvent.createBuffer g.nextHandle type size] })

/-- The resize-or-update step applied to one buffer (lines 201-227 for the vertex
buffer, 230-256 for the index buffer). Returns the buffer, the device and
whether the buffer was recreated. -/
def updateBuffer (type : GPUBufferType) (stride : Nat) (staging : nk_buffer)
    (cur : Option GPUBuffer) (g : Graphics) : GPUBuffer × Graphics × Bool :=
  match cur with
  | none =>
    let r := createBuffer type (newSize stride staging.needed) staging g
    (r.1, r.2, true)
  | some buf =>
    if staging.needed > buf.size then
      let r := createBuffer type (newSize stride staging.needed) staging
        (releaseBuffer (some buf) g)
      (r.1, r.2, true)
    else
      ({ buf with bytes := memcpy buf.bytes staging.memory staging.needed },
       { g with events := g.events ++ [GfxEvent.flush buf.handle 0 staging.needed] },
       false)

/-- Construction of the `PrimitiveBuffer` from the current vertex and index buffer. -/
def createPrimitiveBuffer (vbo ibo : GPUBuffer) (g : Graphics) : PrimitiveBuffer × Graphics :=
  ({ handle := g.nextHandle, vbo := vbo.handle, ibo := ibo.handle },
   { nextHandle := g.nextHandle + 1,
     events := g.events ++ [GfxEvent.createPrimitiveBuffer g.nextHandle vbo.handle ibo.handle] })

/-- `GUI::bakePrimitives(Graphics &g)`, from the result `cv` of `nk_convert`;
`stride` is `vertexLayout.getStride()`. -/
def bakePrimitives (stride : Nat) (cv : Converted) (d : Data) (g : Graphics) : Data × Graphics :=
  if cv.verts.needed ≠ 0 then
    let v := updateBuffer GPUBufferType.VERTEX stride cv.verts d.vbo g
    let i := updateBuffer GPUBufferType.INDEX 2 cv.idx d.ibo v.2.1
    if v.2.2 || i.2.2 then
      let p := createPrimitiveBuffer v.1 i.1 (releasePrimitiveBuffer d.primitiveBuffer i.2.1)
      ({ ibo := some i.1, vbo := some v.1, primitiveBuffer := some p.1,
         drawCommands := cv.drawCommands }, p.2)
    else
      ({ ibo := some i.1, vbo := some v.1, primitiveBuffer := d.primitiveBuffer,
         drawCommands := cv.drawCommands }, i.2.1)
  else
    ({ ibo := none, vbo := none, primitiveBuffer := none, drawCommands := cv.drawCommands },
     releasePrimitiveBuffer d.primitiveBuffer (releaseBuffer d.ibo (releaseBuffer d.vbo g)))

/-- A sequence of `bakePrimitives` calls, one per frame, oldest first. -/
def bakeAll (stride : Nat) : List Converted → Data × Graphics → Data × Graphics
  | [], s => s
  | cv :: rest, s => bakeAll stride rest (bakePrimitives stride cv s.1 s.2)

/-- Capacity of a buffer reference, `0` when there is no buffer. -/
def capacity (b : Option GPUBuffer) : Nat :=
  match b with
  | none => 0
  | some buf => buf.size

/-- The events a call added to the device: those after the first `before.events.length`. -/
def newEvents (before after : Graphics) : List GfxEvent :=
  after.events.drop before.events.length

/-- Whether a list of events contains the creation of a buffer of the given type. -/
def createsBuffer (type : GPUBufferType) (evs : List GfxEvent) : Bool :=
  evs.any (fun e =>
    match e with
    | GfxEvent.createBuffer _ t _ => decide (t = type)
    | _ => false)

/-- Whether a list of events contains the creation of a primitive buffer. -/
def createsPrimitiveBuffer (evs : List GfxEvent) : Bool :=
  evs.any (fun e =>
    match e with
    | GfxEvent.createPrimitiveBuffer _ _ _ => true
    | _ => false)

/-! ## `GUI::draw` -/

/-- Conversion of a finite `float` to an integer type rounds toward zero. -/
def truncToInt (q : ℚ) : Int :=
  Int.tdiv q.num q.den

/-- The cast `u32(f)`; a value outside `u32` (undefined in C++) is reduced modulo `2 ^ 32`. -/
def u32 (q : ℚ) : Nat :=
  (truncToInt q % 2 ^ 32).toNat

/-- The cast `i32(f)`; a value outside `i32` (undefined in C++) is wrapped into the range. -/
def i32 (q : ℚ) : Int :=
  Int.bmod (truncToInt q) (2 ^ 32)

/-- The cast `u16(n)` of an unsigned integer. -/
def u16 (n : Nat) : Nat :=
  n % U16_MOD

/-- The arguments of a `SetScissor` command with arguments: size and offset. -/
structure Scissor where
  width : Nat
  height : Nat
  x : Int
  y : Int
  deriving DecidableEq, Repr

/-- The commands `GUI::draw` adds to the command list. `SetScissor none` is the
call `SetScissor()` without arguments. -/
inductive Command where
  | BindPrimitiveBuffer (pb : Option PrimitiveBuffer)
  | SetScissor (args : Option Scissor)
  | DrawInstanced_indexed (count : Nat) (instanceCount : Nat) (start : Nat)
  deriving DecidableEq, Repr

/-- Whether a command is the bind of a primitive buffer. -/
def isBind (c : Command) : Bool :=
  match c with
  | Command.BindPrimitiveBuffer _ => true
  | _ => false

/-- The scissor command for a clip rectangle (line 298). -/
def scissorOf (r : nk_rect) : Command :=
  if r.w = 16384 then Command.SetScissor none
  else Command.SetScissor (some { width := u32 r.w, height := u32 r.h, x := i32 r.x, y := i32 r.y })

/-- The body of `nk_draw_foreach` in `GUI::draw` (lines 291-303), with the
current value of the `nk_draw_index offset`. -/
def drawLoop : List nk_draw_command → Nat → List Command
  | [], _ => []
  | cmd :: rest, offset =>
    if cmd.elem_count = 0 then drawLoop rest offset
    else
      scissorOf cmd.clip_rect ::
        Command.DrawInstanced_indexed cmd.elem_count 1 offset ::
          drawLoop rest ((offset + u16 cmd.elem_count) % U16_MOD)

/-- `GUI::draw()`: the commands added to the command list, in order. -/
def draw (d : Data) : List Command :=
  Command.BindPrimitiveBuffer d.primitiveBuffer :: drawLoop d.drawCommands 0

/-- The commands of a list that are translated: those with a non-zero element count. -/
def translated (cmds : List nk_draw_command) : List nk_draw_command :=
  cmds.filter (fun c => decide (c.elem_count ≠ 0))

/-- The index offsets carried by the indexed draws of a command list, in order. -/
def drawOffsets : List Command → List Nat
  | [] => []
  | Command.DrawInstanced_indexed _ _ start :: rest => start :: drawOffsets rest
  | _ :: rest => drawOffsets rest

/-- The running sums `[0, c1, c1 + c2, ...]` of a list of counts, one per count,
starting from `acc`. -/
def runningSums : List Nat → Nat → List Nat
  | [], _ => []
  | c :: rest, acc => acc :: runningSums rest (acc + c)

/-- Truncation to an integer as the specification words it: the floor of a
non-negative value, the ceiling of a negative one. -/
def trunc (q : ℚ) : Int :=
  if 0 ≤ q then ⌊q⌋ else ⌈q⌉

/-- The element counts of a command list. -/
def elemCounts (cmds : List nk_draw_command) : List Nat :=
  cmds.map (fun c => c.elem_count)

/-! ## Allocator shim (`nkAlloc`, `nkFree`) -/

/-- Calls into the host allocator `oic::System::allocator()`. -/
inductive HostCall where
  | allocArray (count : Nat) (result : Nat)
  | freeArray (address : Nat) (size : Nat)
  deriving DecidableEq, Repr

/-- The global registry `HashMap<void*, usz> sizes` (address to size) and the
calls made to the host allocator (oldest first). Address `0` is the null pointer. -/
structure Registry where
  sizes : Nat → Option Nat
  host : List HostCall

/-- The registry at program start: empty. -/
def Registry.empty : Registry :=
  { sizes := fun _ => none, host := [] }

/-- `nkAlloc(nk_handle, void*, nk_size count)`; `allocation` is the address the
host allocator returns for `allocArray(count)`. -/
def nkAlloc (allocation : Nat) (count : Nat) (s : Registry) : Nat × Registry :=
  (allocation,
   { sizes := Function.update s.sizes allocation (some count),
     host := s.host ++ [HostCall.allocArray count allocation] })

/-- The fatal condition raised by `oic::System::log()->fatal`, with its message. -/
structure Fatal where
  message : String
  deriving DecidableEq, Repr

/-- `nkFree(nk_handle, u8 *old)`. -/
def nkFree (old : Nat) (s : Registry) : Except Fatal Registry :=
  if old = 0 then Except.ok s
  else
    match s.sizes old with
    | none => Except.error { message := "Couldn't nkFree" }
    | some size =>
      Except.ok { sizes := Function.update s.sizes old none,
                  host := s.host ++ [HostCall.freeArray old size] }

/-- Whether a result of `nkFree` is the fatal condition. -/
def raisesFatal (r : Except Fatal Registry) : Bool :=
  match r with
  | Except.error _ => true
  | Except.ok _ => false

/-! ## `GUI::onInputUpdate` -/

/-- The Nuklear keys named by the `NKey` enum. -/
inductive nk_keys where
  | NK_KEY_SHIFT
  | NK_KEY_CTRL
  | NK_KEY_DEL
  | NK_KEY_ENTER
  | NK_KEY_TAB
  | NK_KEY_BACKSPACE
  | NK_KEY_UP
  | NK_KEY_DOWN
  | NK_KEY_LEFT
  | NK_KEY_RIGHT
  deriving DecidableEq, Repr

/-- Modelled from the spec: the `oicExposedEnum` helper `idByName` (its header
`types/enum.hpp` is not under `src/`): the name is looked up in the name table
of the enum, in declaration order; the result is the position of the name, or
the number of entries (`count`) when the table has no such name. -/
def idByName (names : List String) (name : String) : Nat :=
  names.indexOf name

/-- The names of `oicExposedEnum(NMouseButton, ...)` (lines 55-60), in declaration order. -/
def NMouseButton.names : List String :=
  ["BUTTON_LEFT", "BUTTON_MIDDLE", "BUTTON_RIGHT"]

/-- The values of `NMouseButton`: no initialiser, so `0, 1, 2`. -/
def NMouseButton.values : List Int :=
  [0, 1, 2]

/-- `NMouseButton::count`. -/
def NMouseButton.count : Nat :=
  NMouseButton.names.length

/-- The names of `oicExposedEnum(NKey, ...)` (lines 62-74), in declaration order. -/
def NKey.names : List String :=
  ["KEY_SHIFT", "KEY_CTRL", "KEY_DELETE", "KEY_ENTER", "KEY_TAB", "KEY_BACKSPACE",
   "KEY_UP", "KEY_DOWN", "KEY_LEFT", "KEY_RIGHT"]

/-- The values of `NKey`, in declaration order. -/
def NKey.values : List nk_keys :=
  [nk_keys.NK_KEY_SHIFT, nk_keys.NK_KEY_CTRL, nk_keys.NK_KEY_DEL, nk_keys.NK_KEY_ENTER,
   nk_keys.NK_KEY_TAB, nk_keys.NK_KEY_BACKSPACE, nk_keys.NK_KEY_UP, nk_keys.NK_KEY_DOWN,
   nk_keys.NK_KEY_LEFT, nk_keys.NK_KEY_RIGHT]

/-- `NKey::count`. -/
def NKey.count : Nat :=
  NKey.names.length

/-- The device classes of `InputDevice::Type`. -/
inductive DeviceType where
  | KEYBOARD
  | MOUSE
  | OTHER
  deriving DecidableEq, Repr

/-- An `InputDevice`: its type and the current value of each axis (`getCurrentAxis`). -/
structure InputDevice where
  type : DeviceType
  currentAxis : Nat → ℚ

/-- The engine's input tables and conversions, declared outside this file: the
`Key` and `MouseButton` enums, the `MouseAxis` constants and the rounding `f32(f64)`. -/
structure Engine where
  keyNameById : Nat → String
  mouseButtonCount : Nat
  mouseButtonNameById : Nat → String
  AXIS_X : Nat
  AXIS_Y : Nat
  AXIS_WHEEL : Nat
  f32 : ℚ → ℚ

/-- Calls into the Nuklear input API. -/
inductive NkInput where
  | key (k : nk_keys) (down : Int)
  | button (b : Int) (x : Int) (y : Int) (down : Int)
  | scroll (x : ℚ) (y : ℚ)
  | motion (x : Int) (y : Int)
  deriving DecidableEq

/-- The part of the `GUI` written by `onInputUpdate`: the `couldRefresh` flag and
the input calls the Nuklear context received (oldest first). -/
structure InputState where
  couldRefresh : Bool
  calls : List NkInput
  deriving DecidableEq

/-- A read of `values[nkid]` past the end of an enum's value table. -/
inductive Fault where
  | outOfRange (table : String) (index : Nat)
  deriving DecidableEq, Repr

/-- The cast `int(b)` of a `bool`. -/
def boolToInt (b : Bool) : Int :=
  if b then 1 else 0

/-- `GUI::onInputUpdate(const InputDevice *dvc, InputHandle ih, bool isActive)`:
the returned flag and the new state, or the fault of an out-of-range table read. -/
def onInputUpdate (E : Engine) (dvc : InputDevice) (ih : Nat) (isActive : Bool)
    (s : InputState) : Except Fault (Bool × InputState) :=
  if dvc.type = DeviceType.KEYBOARD then
    let name := E.keyNameById ih
    let nkid := idByName NKey.names name
    if nkid ≠ NKey.count then
      match NKey.values[nkid]? with
      | none => Except.error (Fault.outOfRange "NKey" nkid)
      | some k =>
        Except.ok (true, { couldRefresh := true,
                           calls := s.calls ++ [NkInput.key k (boolToInt isActive)] })
    else Except.ok (false, s)
  else if dvc.type = DeviceType.MOUSE then
    let x := dvc.currentAxis E.AXIS_X
    let y := dvc.currentAxis E.AXIS_Y
    if ih < E.mouseButtonCount then
      let name := E.mouseButtonNameById ih
      let nkid := idByName NMouseButton.names name
      if nkid ≠ E.mouseButtonCount then
        match NMouseButton.values[nkid]? with
        | none => Except.error (Fault.outOfRange "NMouseButton" nkid)
        | some b =>
          Except.ok (true, { couldRefresh := true,
                             calls := s.calls ++ [NkInput.button b (i32 x) (i32 y)
                               (boolToInt isActive)] })
      else Except.ok (false, s)
    else
      let axis := ih - E.mouseButtonCount
      if axis = E.AXIS_WHEEL then
        Except.ok (true, { couldRefresh := true,
                           calls := s.calls ++
                             [NkInput.scroll (E.f32 (dvc.currentAxis E.AXIS_WHEEL)) 0] })
      else if axis = E.AXIS_X ∨ axis = E.AXIS_Y then
        Except.ok (true, { couldRefresh := true,
                           calls := s.calls ++ [NkInput.motion (i32 x) (i32 y)] })
      else Except.ok (false, s)
  else Except.ok (false, s)

/-! ## Sample inputs -/

/-- An engine whose mouse has five buttons, two of them without a Nuklear counterpart. -/
def fiveButtonEngine : Engine :=
  { keyNameById := fun _ => "KEY_A",
    mouseButtonCount := 5,
    mouseButtonNameById := fun i =>
      ["BUTTON_LEFT", "BUTTON_MIDDLE", "BUTTON_RIGHT", "BUTTON_BACK", "BUTTON_FORWARD"].getD i "",
    AXIS_X := 0,
    AXIS_Y := 1,
    AXIS_WHEEL := 2,
    f32 := fun q => q }

/-- A mouse at position `(10, 20)` whose wheel axis reads `3`. -/
def sampleMouse : InputDevice :=
  { type := DeviceType.MOUSE, currentAxis := fun a => if a = 0 then 10 else if a = 1 then 20 else 3 }

/-- A keyboard. -/
def sampleKeyboard : InputDevice :=
  { type := DeviceType.KEYBOARD, currentAxis := fun _ => 0 }

/-- The input state before the first event. -/
def InputState.init : InputState :=
  { couldRefresh := false, calls := [] }

/-- A frame in which `nk_convert` produced nothing. -/
def emptyFrame : Converted :=
  { drawCommands := [], verts := { needed := 0, memory := fun _ => 0 },
    idx := { needed := 0, memory := fun _ => 0 } }

/-- A frame with `v` needed vertex bytes and `i` needed index bytes. -/
def frameOf (v i : Nat) : Converted :=
  { drawCommands := [], verts := { needed := v, memory := fun _ => 7 },
    idx := { needed := i, memory := fun _ => 9 } }

/-- A device that has created no resource yet. -/
def Graphics.init : Graphics :=
  { nextHandle := 0, events := [] }

/-- A vertex buffer of 1 MiB rounded up to a stride of 20. -/
def sampleVbo : GPUBuffer :=
  { handle := 0, type := GPUBufferType.VERTEX, size := 1048580, bytes := fun _ => 0 }

/-- An index buffer of 1 MiB. -/
def sampleIbo : GPUBuffer :=
  { handle := 1, type := GPUBufferType.INDEX, size := 1048576, bytes := fun _ => 0 }

/-- A state with a vertex buffer, an index buffer and a binding allocated. -/
def allocatedData : Data :=
  { vbo := some sampleVbo,
    ibo := some sampleIbo,
    primitiveBuffer := some { handle := 2, vbo := 0, ibo := 1 },
    drawCommands := [] }

/-- The device after it created the three resources of `allocatedData`. -/
def allocatedGraphics : Graphics :=
  { nextHandle := 3,
    events := [GfxEvent.createBuffer 0 GPUBufferType.VERTEX 1048580,
               GfxEvent.createBuffer 1 GPUBufferType.INDEX 1048576,
               GfxEvent.createPrimitiveBuffer 2 0 1] }

/-- The clip rectangle Nuklear uses for "no clipping". -/
def nullRect : nk_rect :=
  { x := -8192, y := -8192, w := 16384, h := 16384 }

/-- A command of 40000 elements without clipping. -/
def bigCommand : nk_draw_command :=
  { elem_count := 40000, clip_rect := nullRect }

/-- A state whose draw commands have the element counts `40000, 40000, 3`. -/
def wrapData : Data :=
  { ibo := none, vbo := none, primitiveBuffer := none,
    drawCommands := [bigCommand, bigCommand, { elem_count := 3, clip_rect := nullRect }] }

/-- A command of 6 elements without clipping. -/
def firstCommand : nk_draw_command :=
  { elem_count := 6, clip_rect := nullRect }

/-- A command without elements. -/
def skippedCommand : nk_draw_command :=
  { elem_count := 0, clip_rect := nullRect }

/-- A command of 12 elements clipped to the window rectangle `(50, 50, 300, 350)`. -/
def clippedCommand : nk_draw_command :=
  { elem_count := 12, clip_rect := { x := 50, y := 50, w := 300, h := 350 } }

/-- A state whose draw commands have the element counts `6, 0, 12`. -/
def smallData : Data :=
  { ibo := none, vbo := none, primitiveBuffer := none,
    drawCommands := [firstCommand, skippedCommand, clippedCommand] }

/-! ## Theorems: empty frame -/

/-- C3: in a frame whose conversion needs zero bytes, `bakePrimitives` leaves no
vertex buffer, no index buffer and no primitive binding, whatever existed before,
and every resource that existed received its release call. -/
theorem bakePrimitives_empty_releases_all (stride : Nat) (cv : Converted) (d : Data)
    (g : Graphics) (h : cv.verts.needed = 0) :
    (bakePrimitives stride cv d g).1.vbo = none ∧
    (bakePrimitives stride cv d g).1.ibo = none ∧
    (bakePrimitives stride cv d g).1.primitiveBuffer = none ∧
    (∀ b, d.vbo = some b →
      GfxEvent.releaseBuffer b.handle ∈ newEvents g (bakePrimitives stride cv d g).2) ∧
    (∀ b, d.ibo = some b →
      GfxEvent.releaseBuffer b.handle ∈ newEvents g (bakePrimitives stride cv d g).2) ∧
    (∀ p, d.primitiveBuffer = some p →
      GfxEvent.releasePrimitiveBuffer p.handle ∈ newEvents g (bakePrimitives stride cv d g).2) := by
  simp only [bakePrimitives, h, ne_eq, not_true_eq_false, if_false, true_and]
  refine ⟨?_, ?_, ?_⟩
  · intro b hb
    cases hi : d.ibo <;> cases hp : d.primitiveBuffer <;>
      simp [hb, newEvents, releaseBuffer, releasePrimitiveBuffer]
  · intro b hb
    cases hv : d.vbo <;> cases hp : d.primitiveBuffer <;>
      simp [hb, newEvents, releaseBuffer, releasePrimitiveBuffer]
  · intro p hp
    cases hv : d.vbo <;> cases hi : d.ibo <;>
      simp [hp, newEvents, releaseBuffer, releasePrimitiveBuffer]

/-- Witness for `bakePrimitives_empty_releases_all`: an empty frame on a state with all three
resources allocated. -/
theorem bakePrimitives_empty_releases_all_witness :
    emptyFrame.verts.needed = 0 ∧
    (bakePrimitives 20 emptyFrame allocatedData allocatedGraphics).1.vbo = none ∧
    (bakePrimitives 20 emptyFrame allocatedData allocatedGraphics).1.ibo = none ∧
    (bakePrimitives 20 emptyFrame allocatedData allocatedGraphics).1.primitiveBuffer = none :=
  ⟨rfl,
   (bakePrimitives_empty_releases_all 20 emptyFrame allocatedData allocatedGraphics rfl).1,
   (bakePrimitives_empty_releases_all 20 emptyFrame allocatedData allocatedGraphics rfl).2.1,
   (bakePrimitives_empty_releases_all 20 emptyFrame allocatedData allocatedGraphics rfl).2.2.1⟩

/-! ## Theorems: allocator shim -/

/-- C6: `nkFree` raises the fatal condition exactly when the address is non-null
and the registry has no entry for it. Hence: an allocation followed by the free of
the returned address does not raise; freeing null returns the registry unchanged;
a free of a registered address calls the host allocator with the registered size
and removes that entry and no other. -/
theorem nkFree_fatal_iff_unregistered (old : Nat) (s : Registry) :
    (raisesFatal (nkFree old s) = true ↔ old ≠ 0 ∧ s.sizes old = none) ∧
    (∀ allocation count,
      raisesFatal (nkFree (nkAlloc allocation count s).1 (nkAlloc allocation count s).2)
        = false) ∧
    nkFree 0 s = Except.ok s ∧
    (∀ size, old ≠ 0 → s.sizes old = some size →
      ∃ s', nkFree old s = Except.ok s' ∧ s'.sizes old = none ∧
        (∀ a, a ≠ old → s'.sizes a = s.sizes a) ∧
        s'.host = s.host ++ [HostCall.freeArray old size]) := by
  refine ⟨?_, ?_, ?_, ?_⟩
  · unfold nkFree
    by_cases h0 : old = 0
    · simp [h0, raisesFatal]
    · cases hs : s.sizes old <;> simp [h0, raisesFatal]
  · intro allocation count
    unfold nkFree nkAlloc
    by_cases h0 : allocation = 0
    · simp [h0, raisesFatal]
    · simp [h0, raisesFatal]
  · simp [nkFree]
  · intro size h0 hs
    refine ⟨{ sizes := Function.update s.sizes old none,
              host := s.host ++ [HostCall.freeArray old size] }, ?_, ?_, ?_, ?_⟩
    · simp only [nkFree, h0, if_false, hs]
    · simp
    · intro a ha
      simp [Function.update, ha]
    · rfl

/-! ## Theorems: input forwarding -/

/-- C7: a keyboard event whose key name is not in the `NKey` name table returns
`false` and leaves the state as it was (no call reaches the library); a mouse
event whose handle is the wheel axis returns `true` and adds exactly one scroll
call, carrying the current wheel-axis value converted to `f32`. -/
theorem onInputUpdate_unmapped_key_and_wheel (E : Engine) (dvc : InputDevice) (ih : Nat)
    (isActive : Bool) (s : InputState) :
    (dvc.type = DeviceType.KEYBOARD → E.keyNameById ih ∉ NKey.names →
      onInputUpdate E dvc ih isActive s = Except.ok (false, s)) ∧
    (dvc.type = DeviceType.MOUSE → ih = E.mouseButtonCount + E.AXIS_WHEEL →
      onInputUpdate E dvc ih isActive s =
        Except.ok (true, { couldRefresh := true,
                           calls := s.calls ++
                             [NkInput.scroll (E.f32 (dvc.currentAxis E.AXIS_WHEEL)) 0] })) := by
  constructor
  · intro hk hn
    have hid : idByName NKey.names (E.keyNameById ih) = NKey.count := by
      unfold idByName NKey.count
      exact List.indexOf_of_not_mem hn
    simp [onInputUpdate, hk, hid]
  · intro hm hw
    simp [onInputUpdate, hm, hw]

/-- Witness for `onInputUpdate_unmapped_key_and_wheel`: key `"KEY_A"` on a keyboard, and
handle `5 + 2` on a mouse of the five-button engine. -/
theorem onInputUpdate_unmapped_key_and_wheel_witness :
    onInputUpdate fiveButtonEngine sampleKeyboard 0 true InputState.init
      = Except.ok (false, InputState.init) ∧
    onInputUpdate fiveButtonEngine sampleMouse 7 true InputState.init
      = Except.ok (true, { couldRefresh := true, calls := [NkInput.scroll 3 0] }) :=
  ⟨(onInputUpdate_unmapped_key_and_wheel fiveButtonEngine sampleKeyboard 0 true
      InputState.init).1 rfl (by decide),
   by
    have h := (onInputUpdate_unmapped_key_and_wheel fiveButtonEngine sampleMouse 7 true
      InputState.init).2 rfl rfl
    simpa [fiveButtonEngine, sampleMouse, InputState.init] using h⟩

/-- A mouse button whose name is not in the `NMouseButton` table: the event is
reported as not handled when the engine has exactly three buttons, and otherwise
the test against `MouseButton::count` lets the lookup result `3` through to a
read of `NMouseButton::values[3]`. -/
theorem onInputUpdate_unmapped_button (E : Engine) (dvc : InputDevice) (ih : Nat)
    (isActive : Bool) (s : InputState) (hm : dvc.type = DeviceType.MOUSE)
    (hlt : ih < E.mouseButtonCount) (hname : E.mouseButtonNameById ih ∉ NMouseButton.names) :
    onInputUpdate E dvc ih isActive s =
      if E.mouseButtonCount = NMouseButton.count then Except.ok (false, s)
      else Except.error (Fault.outOfRange "NMouseButton" NMouseButton.count) := by
  have hid : idByName NMouseButton.names (E.mouseButtonNameById ih) = NMouseButton.count := by
    unfold idByName NMouseButton.count
    exact List.indexOf_of_not_mem hname
  have hv : NMouseButton.values[NMouseButton.count]? = none := rfl
  have hstep : onInputUpdate E dvc ih isActive s =
      if NMouseButton.count ≠ E.mouseButtonCount then
        Except.error (Fault.outOfRange "NMouseButton" NMouseButton.count)
      else Except.ok (false, s) := by
    simp only [onInputUpdate, hm, hlt, hid, hv, if_true, reduceCtorEq, if_false]
  rw [hstep]
  by_cases hc : E.mouseButtonCount = NMouseButton.count
  · simp [hc]
  · have hc2 : NMouseButton.count ≠ E.mouseButtonCount := fun h => hc h.symm
    simp [hc, hc2]

/-- C8 (the code at the failing input): on an engine with five mouse buttons, a
press of button `3` (`"BUTTON_BACK"`, not in the `NMouseButton` table) passes the
test `nkid != MouseButton::count` (`3 ≠ 5`) and reads `NMouseButton::values[3]`,
past the end of the three-entry table, instead of returning `false`. -/
theorem onInputUpdate_unmapped_button_out_of_range :
    idByName NMouseButton.names (fiveButtonEngine.mouseButtonNameById 3) = NMouseButton.count ∧
    onInputUpdate fiveButtonEngine sampleMouse 3 true InputState.init
      = Except.error (Fault.outOfRange "NMouseButton" 3) := by
  constructor
  · decide
  · have hid : idByName NMouseButton.names (fiveButtonEngine.mouseButtonNameById 3) = 3 := by
      decide
    have hc : fiveButtonEngine.mouseButtonCount = 5 := rfl
    have ht : sampleMouse.type = DeviceType.MOUSE := rfl
    simp [onInputUpdate, hid, hc, ht, NMouseButton.values]

/-! ## Lemmas: the resize arithmetic -/

/-- Without wrap-around, `newSize` is `max (needed * 2) 1_MiB` rounded up to the stride. -/
theorem newSize_eq (stride needed : Nat) (hs : 0 < stride) (hsr : stride < 2 ^ 62)
    (hn : needed < 2 ^ 62) :
    newSize stride needed =
      if max (needed * 2) MiB % stride = 0 then max (needed * 2) MiB
      else (max (needed * 2) MiB / stride + 1) * stride := by
  have hM : max (needed * 2) MiB < 2 ^ 63 := by
    simp only [MiB]; omega
  have h1 : needed * 2 % USZ_MOD = needed * 2 := by
    apply Nat.mod_eq_of_lt; simp only [USZ_MOD]; omega
  have hdiv : max (needed * 2) MiB / stride ≤ max (needed * 2) MiB := Nat.div_le_self _ _
  have hmul : max (needed * 2) MiB / stride * stride ≤ max (needed * 2) MiB :=
    Nat.div_mul_le_self _ _
  have h2 : (max (needed * 2) MiB / stride + 1) % USZ_MOD = max (needed * 2) MiB / stride + 1 := by
    apply Nat.mod_eq_of_lt; simp only [USZ_MOD]; omega
  have h3 : (max (needed * 2) MiB / stride + 1) * stride % USZ_MOD
      = (max (needed * 2) MiB / stride + 1) * stride := by
    apply Nat.mod_eq_of_lt
    rw [Nat.add_mul, Nat.one_mul]; simp only [USZ_MOD]; omega
  unfold newSize
  simp only [h1, h2, h3, ne_eq, ite_not]

/-- Rounding `m` up to the stride gives a multiple of the stride. -/
theorem roundUp_dvd (stride m : Nat) :
    stride ∣ (if m % stride = 0 then m else (m / stride + 1) * stride) := by
  split
  · next h => exact Nat.dvd_of_mod_eq_zero h
  · exact Nat.dvd_mul_left _ _

/-- Rounding `m` up to the stride does not go below `m`. -/
theorem roundUp_ge (stride m : Nat) (hs : 0 < stride) :
    m ≤ (if m % stride = 0 then m else (m / stride + 1) * stride) := by
  split
  · exact le_refl _
  · have h1 := Nat.div_add_mod m stride
    have h2 := Nat.mod_lt m hs
    have h3 : (m / stride + 1) * stride = stride * (m / stride) + stride := by ring
    omega

/-- Rounding `m` up to the stride gives the least multiple of the stride from `m` on. -/
theorem roundUp_least (stride m k : Nat) (hk : stride ∣ k) (hle : m ≤ k) :
    (if m % stride = 0 then m else (m / stride + 1) * stride) ≤ k := by
  split
  · exact hle
  · next h =>
    obtain ⟨c, rfl⟩ := hk
    rw [Nat.mul_comm stride c]
    apply Nat.mul_le_mul_right
    by_contra hc
    have hc2 : c ≤ m / stride := by omega
    have h4 : stride * c ≤ stride * (m / stride) := Nat.mul_le_mul_left _ hc2
    have h5 := Nat.div_add_mod m stride
    have h6 : m % stride = 0 := by omega
    exact h h6

/-- Rounding `m` up to the stride stays below `m + stride`. -/
theorem roundUp_lt (stride m : Nat) (hs : 0 < stride) :
    (if m % stride = 0 then m else (m / stride + 1) * stride) < m + stride := by
  split
  · omega
  · next h =>
    have h1 := Nat.div_add_mod m stride
    have h3 : (m / stride + 1) * stride = stride * (m / stride) + stride := by ring
    omega

/-- Without wrap-around, the new capacity is a multiple of the stride. -/
theorem newSize_dvd (stride needed : Nat) (hs : 0 < stride) (hsr : stride < 2 ^ 62)
    (hn : needed < 2 ^ 62) : stride ∣ newSize stride needed := by
  rw [newSize_eq stride needed hs hsr hn]
  exact roundUp_dvd _ _

/-- Without wrap-around, the new capacity is at least `max (needed * 2) 1_MiB`. -/
theorem newSize_ge (stride needed : Nat) (hs : 0 < stride) (hsr : stride < 2 ^ 62)
    (hn : needed < 2 ^ 62) : max (needed * 2) MiB ≤ newSize stride needed := by
  rw [newSize_eq stride needed hs hsr hn]
  exact roundUp_ge _ _ hs

/-- Without wrap-around, no smaller multiple of the stride reaches `max (needed * 2) 1_MiB`. -/
theorem newSize_least (stride needed : Nat) (hs : 0 < stride) (hsr : stride < 2 ^ 62)
    (hn : needed < 2 ^ 62) (k : Nat) (hk : stride ∣ k) (hle : max (needed * 2) MiB ≤ k) :
    newSize stride needed ≤ k := by
  rw [newSize_eq stride needed hs hsr hn]
  exact roundUp_least _ _ _ hk hle

/-! ## Lemmas: one buffer step -/

/-- On the resize path the buffer gets the new capacity and is reported as recreated. -/
theorem updateBuffer_recreate (type : GPUBufferType) (stride : Nat) (staging : nk_buffer)
    (cur : Option GPUBuffer) (g : Graphics)
    (h : cur = none ∨ ∃ b, cur = some b ∧ b.size < staging.needed) :
    (updateBuffer type stride staging cur g).1.size = newSize stride staging.needed ∧
    (updateBuffer type stride staging cur g).2.2 = true ∧
    (updateBuffer type stride staging cur g).1.handle
      = (updateBuffer type stride staging cur g).2.1.nextHandle - 1 ∧
    (updateBuffer type stride staging cur g).2.1.events
      = (releaseBuffer cur g).events ++
        [GfxEvent.createBuffer (updateBuffer type stride staging cur g).1.handle type
          (newSize stride staging.needed)] := by
  rcases h with h | ⟨b, hb, hlt⟩
  · subst h
    simp [updateBuffer, createBuffer, releaseBuffer]
  · subst hb
    simp [updateBuffer, createBuffer, releaseBuffer, hlt]

/-- On the update path the buffer keeps handle, type and capacity, receives the
staging bytes at the front and is flushed over exactly that range. -/
theorem updateBuffer_keep (type : GPUBufferType) (stride : Nat) (staging : nk_buffer)
    (b : GPUBuffer) (g : Graphics) (hle : staging.needed ≤ b.size) :
    updateBuffer type stride staging (some b) g =
      ({ b with bytes := memcpy b.bytes staging.memory staging.needed },
       { g with events := g.events ++ [GfxEvent.flush b.handle 0 staging.needed] },
       false) := by
  have h : ¬ staging.needed > b.size := by omega
  simp [updateBuffer, h]

/-- After the step the buffer holds the needed bytes. -/
theorem updateBuffer_size_ge (type : GPUBufferType) (stride : Nat) (staging : nk_buffer)
    (cur : Option GPUBuffer) (g : Graphics) (hs : 0 < stride) (hsr : stride < 2 ^ 62)
    (hn : staging.needed < 2 ^ 62) :
    staging.needed ≤ (updateBuffer type stride staging cur g).1.size := by
  have hge := newSize_ge stride staging.needed hs hsr hn
  have hmax : staging.needed ≤ max (staging.needed * 2) MiB :=
    le_trans (by omega) (le_max_left _ _)
  cases cur with
  | none =>
    rw [(updateBuffer_recreate type stride staging none g (Or.inl rfl)).1]
    omega
  | some b =>
    by_cases hlt : b.size < staging.needed
    · rw [(updateBuffer_recreate type stride staging (some b) g (Or.inr ⟨b, rfl, hlt⟩)).1]
      omega
    · rw [updateBuffer_keep type stride staging b g (by omega)]
      simp only
      omega

/-- The step never lowers the capacity. -/
theorem updateBuffer_capacity_mono (type : GPUBufferType) (stride : Nat) (staging : nk_buffer)
    (cur : Option GPUBuffer) (g : Graphics) (hs : 0 < stride) (hsr : stride < 2 ^ 62)
    (hn : staging.needed < 2 ^ 62) :
    capacity cur ≤ (updateBuffer type stride staging cur g).1.size := by
  cases cur with
  | none => simp [capacity]
  | some b =>
    by_cases hlt : b.size < staging.needed
    · have h := updateBuffer_size_ge type stride staging (some b) g hs hsr hn
      simp only [capacity]
      omega
    · rw [updateBuffer_keep type stride staging b g (by omega)]
      simp [capacity]

/-- The step keeps the capacity a multiple of the stride. -/
theorem updateBuffer_dvd (type : GPUBufferType) (stride : Nat) (staging : nk_buffer)
    (cur : Option GPUBuffer) (g : Graphics) (hs : 0 < stride) (hsr : stride < 2 ^ 62)
    (hn : staging.needed < 2 ^ 62) (hcur : stride ∣ capacity cur) :
    stride ∣ (updateBuffer type stride staging cur g).1.size := by
  have hd := newSize_dvd stride staging.needed hs hsr hn
  cases cur with
  | none =>
    rw [(updateBuffer_recreate type stride staging none g (Or.inl rfl)).1]
    exact hd
  | some b =>
    by_cases hlt : b.size < staging.needed
    · rw [(updateBuffer_recreate type stride staging (some b) g (Or.inr ⟨b, rfl, hlt⟩)).1]
      exact hd
    · rw [updateBuffer_keep type stride staging b g (by omega)]
      simpa [capacity] using hcur

/-! ## Lemmas: one frame and sequences of frames -/

/-- In a non-empty frame the vertex buffer is the result of its buffer step. -/
theorem bakePrimitives_vbo (stride : Nat) (cv : Converted) (d : Data) (g : Graphics)
    (hne : cv.verts.needed ≠ 0) :
    (bakePrimitives stride cv d g).1.vbo
      = some (updateBuffer GPUBufferType.VERTEX stride cv.verts d.vbo g).1 := by
  unfold bakePrimitives
  simp only [hne, ne_eq, not_false_eq_true, if_true]
  split <;> rfl

/-- In a non-empty frame the index buffer is the result of its buffer step, run
after the vertex step. -/
theorem bakePrimitives_ibo (stride : Nat) (cv : Converted) (d : Data) (g : Graphics)
    (hne : cv.verts.needed ≠ 0) :
    (bakePrimitives stride cv d g).1.ibo
      = some (updateBuffer GPUBufferType.INDEX 2 cv.idx d.ibo
          (updateBuffer GPUBufferType.VERTEX stride cv.verts d.vbo g).2.1).1 := by
  unfold bakePrimitives
  simp only [hne, ne_eq, not_false_eq_true, if_true]
  split <;> rfl

/-- A sequence of frames followed by one more frame. -/
theorem bakeAll_append_single (stride : Nat) (frames : List Converted) (cv : Converted)
    (s : Data × Graphics) :
    bakeAll stride (frames ++ [cv]) s
      = bakePrimitives stride cv (bakeAll stride frames s).1 (bakeAll stride frames s).2 := by
  induction frames generalizing s with
  | nil => rfl
  | cons f rest ih => exact ih (bakePrimitives stride f s.1 s.2)

/-- One frame keeps both capacities multiples of their strides. -/
theorem bakePrimitives_dvd (stride : Nat) (cv : Converted) (d : Data) (g : Graphics)
    (hs : 0 < stride) (hsr : stride < 2 ^ 62)
    (hv : cv.verts.needed < 2 ^ 62) (hi : cv.idx.needed < 2 ^ 62)
    (hd : stride ∣ capacity d.vbo ∧ 2 ∣ capacity d.ibo) :
    stride ∣ capacity (bakePrimitives stride cv d g).1.vbo ∧
    2 ∣ capacity (bakePrimitives stride cv d g).1.ibo := by
  by_cases hne : cv.verts.needed = 0
  · simp [bakePrimitives, hne, capacity]
  · rw [bakePrimitives_vbo stride cv d g hne, bakePrimitives_ibo stride cv d g hne]
    exact ⟨updateBuffer_dvd _ stride cv.verts d.vbo g hs hsr hv hd.1,
      updateBuffer_dvd _ 2 cv.idx d.ibo _ (by decide) (by decide) hi hd.2⟩

/-- Every sequence of frames keeps both capacities multiples of their strides. -/
theorem bakeAll_dvd (stride : Nat) (hs : 0 < stride) (hsr : stride < 2 ^ 62)
    (frames : List Converted) (s : Data × Graphics)
    (hr : ∀ c ∈ frames, c.verts.needed < 2 ^ 62 ∧ c.idx.needed < 2 ^ 62)
    (hd : stride ∣ capacity s.1.vbo ∧ 2 ∣ capacity s.1.ibo) :
    stride ∣ capacity (bakeAll stride frames s).1.vbo ∧
    2 ∣ capacity (bakeAll stride frames s).1.ibo := by
  induction frames generalizing s with
  | nil => exact hd
  | cons f rest ih =>
    simp only [bakeAll]
    apply ih
    · intro c hc
      exact hr c (List.mem_cons_of_mem _ hc)
    · exact bakePrimitives_dvd stride f s.1 s.2 hs hsr
        (hr f (List.mem_cons_self _ _)).1 (hr f (List.mem_cons_self _ _)).2 hd

/-! ## Theorems: buffer capacity -/

/-- C1: start from the state after `initData` and run any sequence of frames whose
byte counts and stride do not wrap `usz` (below `2 ^ 62`). After every non-empty
frame (the frame test of line 196: `verts.needed` non-zero) the vertex buffer
exists, holds the needed vertex bytes and has a capacity that is a multiple of
the vertex stride; the index buffer exists, holds the needed index bytes and has
an even capacity. If the next frame is non-empty as well, neither capacity goes
down in it. -/
theorem bakePrimitives_capacity_invariant (stride : Nat) (hs : 0 < stride)
    (hsr : stride < 2 ^ 62) (frames : List Converted) (cv : Converted) (g : Graphics)
    (hr : ∀ c ∈ frames ++ [cv], c.verts.needed < 2 ^ 62 ∧ c.idx.needed < 2 ^ 62)
    (hne : cv.verts.needed ≠ 0) :
    (∃ vb ib,
      (bakeAll stride (frames ++ [cv]) (Data.init, g)).1.vbo = some vb ∧
      (bakeAll stride (frames ++ [cv]) (Data.init, g)).1.ibo = some ib ∧
      cv.verts.needed ≤ vb.size ∧ stride ∣ vb.size ∧
      cv.idx.needed ≤ ib.size ∧ 2 ∣ ib.size) ∧
    (∀ next : Converted, next.verts.needed ≠ 0 →
      next.verts.needed < 2 ^ 62 → next.idx.needed < 2 ^ 62 →
      capacity (bakeAll stride (frames ++ [cv]) (Data.init, g)).1.vbo
        ≤ capacity (bakeAll stride ((frames ++ [cv]) ++ [next]) (Data.init, g)).1.vbo ∧
      capacity (bakeAll stride (frames ++ [cv]) (Data.init, g)).1.ibo
        ≤ capacity (bakeAll stride ((frames ++ [cv]) ++ [next]) (Data.init, g)).1.ibo) := by
  have hcv := hr cv (by simp)
  have hpre : ∀ c ∈ frames, c.verts.needed < 2 ^ 62 ∧ c.idx.needed < 2 ^ 62 := by
    intro c hc
    exact hr c (List.mem_append_left _ hc)
  have hinv := bakeAll_dvd stride hs hsr frames (Data.init, g) hpre
    (by simp [Data.init, capacity])
  constructor
  · rw [bakeAll_append_single, bakePrimitives_vbo _ _ _ _ hne, bakePrimitives_ibo _ _ _ _ hne]
    exact ⟨_, _, rfl, rfl,
      updateBuffer_size_ge _ stride cv.verts _ _ hs hsr hcv.1,
      updateBuffer_dvd _ stride cv.verts _ _ hs hsr hcv.1 hinv.1,
      updateBuffer_size_ge _ 2 cv.idx _ _ (by decide) (by decide) hcv.2,
      updateBuffer_dvd _ 2 cv.idx _ _ (by decide) (by decide) hcv.2 hinv.2⟩
  · intro next hnext hnv hni
    rw [bakeAll_append_single stride (frames ++ [cv]) next,
      bakePrimitives_vbo _ _ _ _ hnext, bakePrimitives_ibo _ _ _ _ hnext]
    exact ⟨updateBuffer_capacity_mono _ stride next.verts _ _ hs hsr hnv,
      updateBuffer_capacity_mono _ 2 next.idx _ _ (by decide) (by decide) hni⟩

/-- Witness for `bakePrimitives_capacity_invariant`: stride `20`, a frame of 500 vertex
bytes, an empty frame, then a frame of 3 MiB of vertex bytes. -/
theorem bakePrimitives_capacity_invariant_witness :
    (0 < 20 ∧ (frameOf 3145728 100).verts.needed ≠ 0) ∧
    (∃ vb ib,
      (bakeAll 20 ([frameOf 500 300, emptyFrame] ++ [frameOf 3145728 100])
        (Data.init, Graphics.init)).1.vbo = some vb ∧
      (bakeAll 20 ([frameOf 500 300, emptyFrame] ++ [frameOf 3145728 100])
        (Data.init, Graphics.init)).1.ibo = some ib ∧
      (frameOf 3145728 100).verts.needed ≤ vb.size ∧ 20 ∣ vb.size ∧
      (frameOf 3145728 100).idx.needed ≤ ib.size ∧ 2 ∣ ib.size) :=
  ⟨⟨by decide, by decide⟩,
   (bakePrimitives_capacity_invariant 20 (by decide) (by decide)
      [frameOf 500 300, emptyFrame] (frameOf 3145728 100) Graphics.init
      (by
        intro c hc
        simp only [List.cons_append, List.nil_append, List.mem_cons, List.mem_singleton,
          List.not_mem_nil, or_false] at hc
        rcases hc with rfl | rfl | rfl <;> exact ⟨by decide, by decide⟩)
      (by decide)).1⟩

/-! ## Lemmas: what a non-empty frame creates -/

/-- In a non-empty frame a buffer is created exactly when it is absent or too
small, and the primitive buffer is created exactly when one of the two buffers
is; a created primitive buffer binds the two current buffers, and without a
creation the binding stays the one from before the call. -/
theorem bakePrimitives_creations (stride : Nat) (cv : Converted) (d : Data) (g : Graphics)
    (hne : cv.verts.needed ≠ 0) :
    (createsBuffer GPUBufferType.VERTEX (newEvents g (bakePrimitives stride cv d g).2) = true
      ↔ (d.vbo = none ∨ capacity d.vbo < cv.verts.needed)) ∧
    (createsBuffer GPUBufferType.INDEX (newEvents g (bakePrimitives stride cv d g).2) = true
      ↔ (d.ibo = none ∨ capacity d.ibo < cv.idx.needed)) ∧
    (createsPrimitiveBuffer (newEvents g (bakePrimitives stride cv d g).2) = true
      ↔ (createsBuffer GPUBufferType.VERTEX (newEvents g (bakePrimitives stride cv d g).2) = true ∨
         createsBuffer GPUBufferType.INDEX (newEvents g (bakePrimitives stride cv d g).2) = true)) ∧
    (createsPrimitiveBuffer (newEvents g (bakePrimitives stride cv d g).2) = true →
      ∃ p vb ib, (bakePrimitives stride cv d g).1.primitiveBuffer = some p ∧
        (bakePrimitives stride cv d g).1.vbo = some vb ∧
        (bakePrimitives stride cv d g).1.ibo = some ib ∧
        p.vbo = vb.handle ∧ p.ibo = ib.handle ∧
        g.nextHandle ≤ p.handle ∧
        (bakePrimitives stride cv d g).2.nextHandle = p.handle + 1 ∧
        GfxEvent.createPrimitiveBuffer p.handle vb.handle ib.handle
          ∈ newEvents g (bakePrimitives stride cv d g).2 ∧
        (∀ q, d.primitiveBuffer = some q →
          GfxEvent.releasePrimitiveBuffer q.handle
            ∈ newEvents g (bakePrimitives stride cv d g).2)) ∧
    (createsPrimitiveBuffer (newEvents g (bakePrimitives stride cv d g).2) = false →
      (bakePrimitives stride cv d g).1.primitiveBuffer = d.primitiveBuffer) := by
  obtain ⟨dibo, dvbo, dpb, dcmds⟩ := d
  rcases dvbo with _ | vb <;> rcases dibo with _ | ib <;> rcases dpb with _ | pb
  · simp [bakePrimitives, hne, updateBuffer, createBuffer, createPrimitiveBuffer,
        releaseBuffer, releasePrimitiveBuffer, newEvents, createsBuffer,
        createsPrimitiveBuffer, capacity]
    omega
  · simp [bakePrimitives, hne, updateBuffer, createBuffer, createPrimitiveBuffer,
        releaseBuffer, releasePrimitiveBuffer, newEvents, createsBuffer,
        createsPrimitiveBuffer, capacity]
    omega
  · by_cases hi : ib.size < cv.idx.needed <;>
      simp [bakePrimitives, hne, updateBuffer, createBuffer, createPrimitiveBuffer,
        releaseBuffer, releasePrimitiveBuffer, newEvents, createsBuffer,
        createsPrimitiveBuffer, capacity, hi]
    all_goals omega
  · by_cases hi : ib.size < cv.idx.needed <;>
      simp [bakePrimitives, hne, updateBuffer, createBuffer, createPrimitiveBuffer,
        releaseBuffer, releasePrimitiveBuffer, newEvents, createsBuffer,
        createsPrimitiveBuffer, capacity, hi]
    all_goals omega
  · by_cases hv : vb.size < cv.verts.needed <;>
      simp [bakePrimitives, hne, updateBuffer, createBuffer, createPrimitiveBuffer,
        releaseBuffer, releasePrimitiveBuffer, newEvents, createsBuffer,
        createsPrimitiveBuffer, capacity, hv]
    all_goals omega
  · by_cases hv : vb.size < cv.verts.needed <;>
      simp [bakePrimitives, hne, updateBuffer, createBuffer, createPrimitiveBuffer,
        releaseBuffer, releasePrimitiveBuffer, newEvents, createsBuffer,
        createsPrimitiveBuffer, capacity, hv]
    all_goals omega
  · by_cases hv : vb.size < cv.verts.needed <;> by_cases hi : ib.size < cv.idx.needed <;>
      simp [bakePrimitives, hne, updateBuffer, createBuffer, createPrimitiveBuffer,
        releaseBuffer, releasePrimitiveBuffer, newEvents, createsBuffer,
        createsPrimitiveBuffer, capacity, hv, hi]
    all_goals omega
  · by_cases hv : vb.size < cv.verts.needed <;> by_cases hi : ib.size < cv.idx.needed <;>
      simp [bakePrimitives, hne, updateBuffer, createBuffer, createPrimitiveBuffer,
        releaseBuffer, releasePrimitiveBuffer, newEvents, createsBuffer,
        createsPrimitiveBuffer, capacity, hv, hi]
    all_goals omega

/-- In a non-empty frame a buffer that exists with enough capacity is flushed over
its first `needed` bytes. -/
theorem bakePrimitives_flushes (stride : Nat) (cv : Converted) (d : Data) (g : Graphics)
    (hne : cv.verts.needed ≠ 0) :
    (∀ b, d.vbo = some b → cv.verts.needed ≤ b.size →
      GfxEvent.flush b.handle 0 cv.verts.needed
        ∈ newEvents g (bakePrimitives stride cv d g).2) ∧
    (∀ b, d.ibo = some b → cv.idx.needed ≤ b.size →
      GfxEvent.flush b.handle 0 cv.idx.needed
        ∈ newEvents g (bakePrimitives stride cv d g).2) := by
  obtain ⟨dibo, dvbo, dpb, dcmds⟩ := d
  rcases dvbo with _ | vb <;> rcases dibo with _ | ib <;> rcases dpb with _ | pb
  · simp [bakePrimitives, hne, updateBuffer, createBuffer, createPrimitiveBuffer,
        releaseBuffer, releasePrimitiveBuffer, newEvents]
  · simp [bakePrimitives, hne, updateBuffer, createBuffer, createPrimitiveBuffer,
        releaseBuffer, releasePrimitiveBuffer, newEvents]
  · by_cases hi : ib.size < cv.idx.needed <;>
      simp [bakePrimitives, hne, updateBuffer, createBuffer, createPrimitiveBuffer,
        releaseBuffer, releasePrimitiveBuffer, newEvents, hi]
  · by_cases hi : ib.size < cv.idx.needed <;>
      simp [bakePrimitives, hne, updateBuffer, createBuffer, createPrimitiveBuffer,
        releaseBuffer, releasePrimitiveBuffer, newEvents, hi]
  · by_cases hv : vb.size < cv.verts.needed <;>
      simp [bakePrimitives, hne, updateBuffer, createBuffer, createPrimitiveBuffer,
        releaseBuffer, releasePrimitiveBuffer, newEvents, hv]
  · by_cases hv : vb.size < cv.verts.needed <;>
      simp [bakePrimitives, hne, updateBuffer, createBuffer, createPrimitiveBuffer,
        releaseBuffer, releasePrimitiveBuffer, newEvents, hv]
  · by_cases hv : vb.size < cv.verts.needed <;> by_cases hi : ib.size < cv.idx.needed <;>
      simp [bakePrimitives, hne, updateBuffer, createBuffer, createPrimitiveBuffer,
        releaseBuffer, releasePrimitiveBuffer, newEvents, hv, hi]
  · by_cases hv : vb.size < cv.verts.needed <;> by_cases hi : ib.size < cv.idx.needed <;>
      simp [bakePrimitives, hne, updateBuffer, createBuffer, createPrimitiveBuffer,
        releaseBuffer, releasePrimitiveBuffer, newEvents, hv, hi]

/-! ## Theorems: in-place update and rebinding -/

/-- C9: in a non-empty frame, (1) a vertex buffer that exists with enough capacity
keeps its handle, type and capacity, receives the staging bytes in its first
`needed` bytes and nothing beyond, is flushed over `[0, needed)`, and is not
recreated; (2) the same holds for the index buffer; (3) a buffer is recreated
exactly when it is absent or too small; (4) the primitive binding is rebuilt
exactly when the vertex or the index buffer was recreated; (5) after a rebuild
`primitiveBuffer` is the binding created in this call: it has a fresh handle,
binds the handles of the vertex and index buffer the state now holds, its create
call with exactly these handles reached the device, and the binding from before
the call was released; (6) when neither buffer was recreated the binding is the
one from before the call. -/
theorem bakePrimitives_update_in_place (stride : Nat) (cv : Converted) (d : Data) (g : Graphics)
    (hne : cv.verts.needed ≠ 0) :
    (∀ b, d.vbo = some b → cv.verts.needed ≤ b.size →
      (bakePrimitives stride cv d g).1.vbo
        = some { b with bytes := memcpy b.bytes cv.verts.memory cv.verts.needed } ∧
      (∀ i, (i < cv.verts.needed →
              memcpy b.bytes cv.verts.memory cv.verts.needed i = cv.verts.memory i) ∧
            (cv.verts.needed ≤ i →
              memcpy b.bytes cv.verts.memory cv.verts.needed i = b.bytes i)) ∧
      GfxEvent.flush b.handle 0 cv.verts.needed ∈ newEvents g (bakePrimitives stride cv d g).2 ∧
      createsBuffer GPUBufferType.VERTEX (newEvents g (bakePrimitives stride cv d g).2) = false) ∧
    (∀ b, d.ibo = some b → cv.idx.needed ≤ b.size →
      (bakePrimitives stride cv d g).1.ibo
        = some { b with bytes := memcpy b.bytes cv.idx.memory cv.idx.needed } ∧
      (∀ i, (i < cv.idx.needed →
              memcpy b.bytes cv.idx.memory cv.idx.needed i = cv.idx.memory i) ∧
            (cv.idx.needed ≤ i →
              memcpy b.bytes cv.idx.memory cv.idx.needed i = b.bytes i)) ∧
      GfxEvent.flush b.handle 0 cv.idx.needed ∈ newEvents g (bakePrimitives stride cv d g).2 ∧
      createsBuffer GPUBufferType.INDEX (newEvents g (bakePrimitives stride cv d g).2) = false) ∧
    (createsBuffer GPUBufferType.VERTEX (newEvents g (bakePrimitives stride cv d g).2) = true
      ↔ (d.vbo = none ∨ capacity d.vbo < cv.verts.needed)) ∧
    (createsBuffer GPUBufferType.INDEX (newEvents g (bakePrimitives stride cv d g).2) = true
      ↔ (d.ibo = none ∨ capacity d.ibo < cv.idx.needed)) ∧
    (createsPrimitiveBuffer (newEvents g (bakePrimitives stride cv d g).2) = true
      ↔ (createsBuffer GPUBufferType.VERTEX (newEvents g (bakePrimitives stride cv d g).2) = true ∨
         createsBuffer GPUBufferType.INDEX (newEvents g (bakePrimitives stride cv d g).2) = true)) ∧
    (createsPrimitiveBuffer (newEvents g (bakePrimitives stride cv d g).2) = true →
      ∃ p vb ib, (bakePrimitives stride cv d g).1.primitiveBuffer = some p ∧
        (bakePrimitives stride cv d g).1.vbo = some vb ∧
        (bakePrimitives stride cv d g).1.ibo = some ib ∧
        p.vbo = vb.handle ∧ p.ibo = ib.handle ∧
        g.nextHandle ≤ p.handle ∧
        (bakePrimitives stride cv d g).2.nextHandle = p.handle + 1 ∧
        GfxEvent.createPrimitiveBuffer p.handle vb.handle ib.handle
          ∈ newEvents g (bakePrimitives stride cv d g).2 ∧
        (∀ q, d.primitiveBuffer = some q →
          GfxEvent.releasePrimitiveBuffer q.handle
            ∈ newEvents g (bakePrimitives stride cv d g).2)) ∧
    (createsPrimitiveBuffer (newEvents g (bakePrimitives stride cv d g).2) = false →
      (bakePrimitives stride cv d g).1.primitiveBuffer = d.primitiveBuffer) := by
  have hc := bakePrimitives_creations stride cv d g hne
  refine ⟨?_, ?_, hc.1, hc.2.1, hc.2.2.1, hc.2.2.2.1, hc.2.2.2.2⟩
  · intro b hb hle
    have hkeep := updateBuffer_keep GPUBufferType.VERTEX stride cv.verts b g hle
    refine ⟨?_, ?_, ?_, ?_⟩
    · rw [bakePrimitives_vbo stride cv d g hne, hb, hkeep]
    · intro i
      constructor
      · intro h; simp [memcpy, h]
      · intro h; simp [memcpy, Nat.not_lt.mpr h]
    · exact (bakePrimitives_flushes stride cv d g hne).1 b hb hle
    · cases hcr : createsBuffer GPUBufferType.VERTEX (newEvents g (bakePrimitives stride cv d g).2)
      · rfl
      · rcases hc.1.mp hcr with h | h
        · rw [hb] at h; cases h
        · rw [hb] at h; simp only [capacity] at h; omega
  · intro b hb hle
    refine ⟨?_, ?_, ?_, ?_⟩
    · rw [bakePrimitives_ibo stride cv d g hne, hb,
        updateBuffer_keep GPUBufferType.INDEX 2 cv.idx b _ hle]
    · intro i
      constructor
      · intro h; simp [memcpy, h]
      · intro h; simp [memcpy, Nat.not_lt.mpr h]
    · exact (bakePrimitives_flushes stride cv d g hne).2 b hb hle
    · cases hcr : createsBuffer GPUBufferType.INDEX (newEvents g (bakePrimitives stride cv d g).2)
      · rfl
      · rcases hc.2.1.mp hcr with h | h
        · rw [hb] at h; cases h
        · rw [hb] at h; simp only [capacity] at h; omega

/-- Witness for `bakePrimitives_update_in_place`: on a state whose buffers hold 1 MiB each,
500 vertex bytes and 300 index bytes keep both buffers and the binding; 3 MiB of
vertex bytes recreate the vertex buffer and rebuild the binding from the current
handles. -/
theorem bakePrimitives_update_in_place_witness :
    (frameOf 500 300).verts.needed ≠ 0 ∧
    (bakePrimitives 20 (frameOf 500 300) allocatedData allocatedGraphics).1.vbo
      = some { sampleVbo with bytes := memcpy sampleVbo.bytes (frameOf 500 300).verts.memory 500 } ∧
    (bakePrimitives 20 (frameOf 500 300) allocatedData allocatedGraphics).1.primitiveBuffer
      = allocatedData.primitiveBuffer ∧
    (∃ p vb ib,
      (bakePrimitives 20 (frameOf 3145728 100) allocatedData allocatedGraphics).1.primitiveBuffer
        = some p ∧
      (bakePrimitives 20 (frameOf 3145728 100) allocatedData allocatedGraphics).1.vbo = some vb ∧
      (bakePrimitives 20 (frameOf 3145728 100) allocatedData allocatedGraphics).1.ibo = some ib ∧
      p.vbo = vb.handle ∧ p.ibo = ib.handle ∧
      allocatedGraphics.nextHandle ≤ p.handle ∧
      (bakePrimitives 20 (frameOf 3145728 100) allocatedData allocatedGraphics).2.nextHandle
        = p.handle + 1 ∧
      GfxEvent.createPrimitiveBuffer p.handle vb.handle ib.handle
        ∈ newEvents allocatedGraphics
            (bakePrimitives 20 (frameOf 3145728 100) allocatedData allocatedGraphics).2 ∧
      (∀ q, allocatedData.primitiveBuffer = some q →
        GfxEvent.releasePrimitiveBuffer q.handle
          ∈ newEvents allocatedGraphics
              (bakePrimitives 20 (frameOf 3145728 100) allocatedData allocatedGraphics).2)) :=
  ⟨by decide,
   ((bakePrimitives_update_in_place 20 (frameOf 500 300) allocatedData allocatedGraphics
      (by decide)).1 sampleVbo rfl (by decide)).1,
   (bakePrimitives_update_in_place 20 (frameOf 500 300) allocatedData allocatedGraphics
      (by decide)).2.2.2.2.2.2 (by decide),
   (bakePrimitives_update_in_place 20 (frameOf 3145728 100) allocatedData allocatedGraphics
      (by decide)).2.2.2.2.2.1 (by decide)⟩

/-! ## Theorems: the capacity chosen on the resize path -/

/-- C2: in a non-empty frame whose byte counts and stride do not wrap `usz`, a
vertex buffer that is absent or too small is recreated with the least multiple of
the vertex stride that reaches `max (2 * needed) 1_MiB`, and an index buffer that
is absent or too small with the least even capacity that reaches
`max (2 * needed) 1_MiB` for its own count. For a vertex stride of at most 2 MiB:
from the state without buffers, 500 vertex bytes give 1 MiB rounded up to the
stride; a following frame of 3 MiB of vertex bytes gives a capacity of at least
6 MiB that is a multiple of the stride, and the primitive buffer is created anew:
the state then holds a binding with a fresh handle over the handles of its current
vertex and index buffer, created by a call with exactly these handles. -/
theorem bakePrimitives_recreate_capacity (stride : Nat) (hs : 0 < stride)
    (hsr : stride < 2 ^ 62) (cv : Converted) (d : Data) (g : Graphics)
    (hne : cv.verts.needed ≠ 0) (hv : cv.verts.needed < 2 ^ 62) (hi : cv.idx.needed < 2 ^ 62) :
    ((d.vbo = none ∨ capacity d.vbo < cv.verts.needed) →
      stride ∣ capacity (bakePrimitives stride cv d g).1.vbo ∧
      max (2 * cv.verts.needed) MiB ≤ capacity (bakePrimitives stride cv d g).1.vbo ∧
      ∀ k, stride ∣ k → max (2 * cv.verts.needed) MiB ≤ k →
        capacity (bakePrimitives stride cv d g).1.vbo ≤ k) ∧
    ((d.ibo = none ∨ capacity d.ibo < cv.idx.needed) →
      2 ∣ capacity (bakePrimitives stride cv d g).1.ibo ∧
      max (2 * cv.idx.needed) MiB ≤ capacity (bakePrimitives stride cv d g).1.ibo ∧
      ∀ k, 2 ∣ k → max (2 * cv.idx.needed) MiB ≤ k →
        capacity (bakePrimitives stride cv d g).1.ibo ≤ k) ∧
    (∀ (f1 f2 : Converted) (g0 : Graphics),
      f1.verts.needed = 500 → f2.verts.needed = 3 * MiB → stride ≤ 2 * MiB →
      capacity (bakePrimitives stride f1 Data.init g0).1.vbo
        = (if MiB % stride = 0 then MiB else (MiB / stride + 1) * stride) ∧
      6 * MiB ≤ capacity (bakePrimitives stride f2 (bakePrimitives stride f1 Data.init g0).1
        (bakePrimitives stride f1 Data.init g0).2).1.vbo ∧
      stride ∣ capacity (bakePrimitives stride f2 (bakePrimitives stride f1 Data.init g0).1
        (bakePrimitives stride f1 Data.init g0).2).1.vbo ∧
      createsPrimitiveBuffer (newEvents (bakePrimitives stride f1 Data.init g0).2
        (bakePrimitives stride f2 (bakePrimitives stride f1 Data.init g0).1
          (bakePrimitives stride f1 Data.init g0).2).2) = true ∧
      (∃ p vb ib,
        (bakePrimitives stride f2 (bakePrimitives stride f1 Data.init g0).1
          (bakePrimitives stride f1 Data.init g0).2).1.primitiveBuffer = some p ∧
        (bakePrimitives stride f2 (bakePrimitives stride f1 Data.init g0).1
          (bakePrimitives stride f1 Data.init g0).2).1.vbo = some vb ∧
        (bakePrimitives stride f2 (bakePrimitives stride f1 Data.init g0).1
          (bakePrimitives stride f1 Data.init g0).2).1.ibo = some ib ∧
        p.vbo = vb.handle ∧ p.ibo = ib.handle ∧
        (bakePrimitives stride f1 Data.init g0).2.nextHandle ≤ p.handle ∧
        GfxEvent.createPrimitiveBuffer p.handle vb.handle ib.handle
          ∈ newEvents (bakePrimitives stride f1 Data.init g0).2
              (bakePrimitives stride f2 (bakePrimitives stride f1 Data.init g0).1
                (bakePrimitives stride f1 Data.init g0).2).2)) := by
  have hcond : ∀ (cur : Option GPUBuffer) (n : Nat),
      (cur = none ∨ capacity cur < n) → (cur = none ∨ ∃ b, cur = some b ∧ b.size < n) := by
    intro cur n h
    cases cur with
    | none => exact Or.inl rfl
    | some b =>
      rcases h with h | h
      · cases h
      · exact Or.inr ⟨b, rfl, h⟩
  refine ⟨?_, ?_, ?_⟩
  · intro h
    rw [bakePrimitives_vbo stride cv d g hne]
    simp only [capacity]
    rw [(updateBuffer_recreate _ stride cv.verts d.vbo g (hcond _ _ h)).1, Nat.mul_comm 2]
    exact ⟨newSize_dvd stride _ hs hsr hv, newSize_ge stride _ hs hsr hv,
      fun k hk hle => newSize_least stride _ hs hsr hv k hk hle⟩
  · intro h
    rw [bakePrimitives_ibo stride cv d g hne]
    simp only [capacity]
    rw [(updateBuffer_recreate _ 2 cv.idx d.ibo _ (hcond _ _ h)).1, Nat.mul_comm 2]
    exact ⟨newSize_dvd 2 _ (by decide) (by decide) hi,
      newSize_ge 2 _ (by decide) (by decide) hi,
      fun k hk hle => newSize_least 2 _ (by decide) (by decide) hi k hk hle⟩
  · intro f1 f2 g0 h1 h2 hst
    have hne1 : f1.verts.needed ≠ 0 := by omega
    have hne2 : f2.verts.needed ≠ 0 := by simp only [MiB] at h2; omega
    have hr1 : f1.verts.needed < 2 ^ 62 := by omega
    have hr2 : f2.verts.needed < 2 ^ 62 := by simp only [MiB] at h2; omega
    have hcap1 : capacity (bakePrimitives stride f1 Data.init g0).1.vbo
        = (if MiB % stride = 0 then MiB else (MiB / stride + 1) * stride) := by
      rw [bakePrimitives_vbo stride f1 Data.init g0 hne1]
      simp only [capacity]
      rw [(updateBuffer_recreate _ stride f1.verts Data.init.vbo g0 (Or.inl rfl)).1,
        newSize_eq stride _ hs hsr hr1, h1]
      have hmax : max (500 * 2) MiB = MiB := by decide
      rw [hmax]
    have hlt := roundUp_lt stride MiB hs
    have hsmall : capacity (bakePrimitives stride f1 Data.init g0).1.vbo < f2.verts.needed := by
      rw [hcap1, h2]
      simp only [MiB] at hst hlt ⊢
      omega
    have hrec : (bakePrimitives stride f1 Data.init g0).1.vbo = none ∨
        capacity (bakePrimitives stride f1 Data.init g0).1.vbo < f2.verts.needed :=
      Or.inr hsmall
    have hc := bakePrimitives_creations stride f2 (bakePrimitives stride f1 Data.init g0).1
      (bakePrimitives stride f1 Data.init g0).2 hne2
    have hcreate := hc.2.2.1.mpr (Or.inl (hc.1.mpr hrec))
    refine ⟨hcap1, ?_, ?_, hcreate, ?_⟩
    · rw [bakePrimitives_vbo stride f2 _ _ hne2]
      simp only [capacity]
      rw [(updateBuffer_recreate _ stride f2.verts _ _ (hcond _ _ hrec)).1]
      have hge := newSize_ge stride f2.verts.needed hs hsr hr2
      have hmax := le_max_left (f2.verts.needed * 2) MiB
      omega
    · rw [bakePrimitives_vbo stride f2 _ _ hne2]
      simp only [capacity]
      rw [(updateBuffer_recreate _ stride f2.verts _ _ (hcond _ _ hrec)).1]
      exact newSize_dvd stride _ hs hsr hr2
    · obtain ⟨p, vb, ib, hp, hvb, hib, h1, h2, h3, _, h5, _⟩ := hc.2.2.2.1 hcreate
      exact ⟨p, vb, ib, hp, hvb, hib, h1, h2, h3, h5⟩

/-- Witness for `bakePrimitives_recreate_capacity`: stride `20`, 500 vertex bytes on the state
without buffers, then 3 MiB of vertex bytes. -/
theorem bakePrimitives_recreate_capacity_witness :
    (0 < 20 ∧ (frameOf 500 300).verts.needed ≠ 0 ∧ Data.init.vbo = none) ∧
    (20 ∣ capacity (bakePrimitives 20 (frameOf 500 300) Data.init Graphics.init).1.vbo ∧
     max (2 * (frameOf 500 300).verts.needed) MiB
       ≤ capacity (bakePrimitives 20 (frameOf 500 300) Data.init Graphics.init).1.vbo) ∧
    6 * MiB ≤ capacity (bakePrimitives 20 (frameOf 3145728 100)
      (bakePrimitives 20 (frameOf 500 300) Data.init Graphics.init).1
      (bakePrimitives 20 (frameOf 500 300) Data.init Graphics.init).2).1.vbo :=
  ⟨⟨by decide, by decide, rfl⟩,
   ⟨((bakePrimitives_recreate_capacity 20 (by decide) (by decide) (frameOf 500 300) Data.init
        Graphics.init (by decide) (by decide) (by decide)).1 (Or.inl rfl)).1,
    ((bakePrimitives_recreate_capacity 20 (by decide) (by decide) (frameOf 500 300) Data.init
        Graphics.init (by decide) (by decide) (by decide)).1 (Or.inl rfl)).2.1⟩,
   ((bakePrimitives_recreate_capacity 20 (by decide) (by decide) (frameOf 500 300) Data.init
        Graphics.init (by decide) (by decide) (by decide)).2.2 (frameOf 500 300)
        (frameOf 3145728 100) Graphics.init rfl rfl (by decide)).2.1⟩

/-! ## Lemmas: the draw loop -/

/-- A scissor command carries no offset. -/
theorem drawOffsets_scissorOf (r : nk_rect) (rest : List Command) :
    drawOffsets (scissorOf r :: rest) = drawOffsets rest := by
  unfold scissorOf
  split <;> rfl

/-- The loop skips a command without elements. -/
theorem drawLoop_cons_zero (c : nk_draw_command) (rest : List nk_draw_command) (offset : Nat)
    (hc : c.elem_count = 0) : drawLoop (c :: rest) offset = drawLoop rest offset := by
  simp [drawLoop, hc]

/-- The loop emits a scissor and an indexed draw for a command with elements. -/
theorem drawLoop_cons_nonzero (c : nk_draw_command) (rest : List nk_draw_command)
    (offset : Nat) (hc : c.elem_count ≠ 0) :
    drawLoop (c :: rest) offset
      = scissorOf c.clip_rect :: Command.DrawInstanced_indexed c.elem_count 1 offset ::
          drawLoop rest ((offset + u16 c.elem_count) % U16_MOD) := by
  simp [drawLoop, hc]

/-- A command without elements is not translated. -/
theorem translated_cons_zero (c : nk_draw_command) (rest : List nk_draw_command)
    (hc : c.elem_count = 0) : translated (c :: rest) = translated rest := by
  simp [translated, hc]

/-- A command with elements is translated. -/
theorem translated_cons_nonzero (c : nk_draw_command) (rest : List nk_draw_command)
    (hc : c.elem_count ≠ 0) : translated (c :: rest) = c :: translated rest := by
  simp [translated, hc]

/-- The loop over a concatenation: the second part starts at the offset the first
part ends with, which is the start offset plus the counts of the first part,
reduced modulo `2 ^ 16`. -/
theorem drawLoop_append (pre rest : List nk_draw_command) (offset : Nat)
    (ho : offset < U16_MOD) :
    drawLoop (pre ++ rest) offset
      = drawLoop pre offset ++ drawLoop rest ((offset + (elemCounts pre).sum) % U16_MOD) := by
  induction pre generalizing offset with
  | nil => simp [drawLoop, elemCounts, Nat.mod_eq_of_lt ho]
  | cons c pre ih =>
    rw [List.cons_append]
    by_cases hc : c.elem_count = 0
    · rw [drawLoop_cons_zero _ _ _ hc, drawLoop_cons_zero _ _ _ hc, ih offset ho]
      simp [elemCounts, hc]
    · have hlt : (offset + u16 c.elem_count) % U16_MOD < U16_MOD :=
        Nat.mod_lt _ (by decide)
      have harith : ((offset + u16 c.elem_count) % U16_MOD + (elemCounts pre).sum) % U16_MOD
          = (offset + (elemCounts (c :: pre)).sum) % U16_MOD := by
        simp only [elemCounts, List.map_cons, List.sum_cons, u16, U16_MOD]
        omega
      rw [drawLoop_cons_nonzero _ _ _ hc, drawLoop_cons_nonzero _ _ _ hc, ih _ hlt, harith]
      rfl

/-- The loop emits two commands per translated command. -/
theorem drawLoop_length (cmds : List nk_draw_command) (offset : Nat) :
    (drawLoop cmds offset).length = 2 * (translated cmds).length := by
  induction cmds generalizing offset with
  | nil => rfl
  | cons c rest ih =>
    by_cases hc : c.elem_count = 0
    · rw [drawLoop_cons_zero _ _ _ hc, translated_cons_zero _ _ hc]
      exact ih offset
    · rw [drawLoop_cons_nonzero _ _ _ hc, translated_cons_nonzero _ _ hc]
      simp only [List.length_cons, ih]
      omega

/-- While the running sum stays within `u16`, the offsets of the loop are the
exact running sums of the translated counts. -/
theorem drawOffsets_drawLoop_exact (cmds : List nk_draw_command) (offset : Nat)
    (h : offset + (elemCounts cmds).sum < U16_MOD) :
    drawOffsets (drawLoop cmds offset) = runningSums (elemCounts (translated cmds)) offset := by
  induction cmds generalizing offset with
  | nil => rfl
  | cons c rest ih =>
    simp only [elemCounts, List.map_cons, List.sum_cons] at h
    by_cases hc : c.elem_count = 0
    · have h2 : offset + (elemCounts rest).sum < U16_MOD := by
        simp only [elemCounts]; omega
      rw [drawLoop_cons_zero _ _ _ hc, translated_cons_zero _ _ hc]
      exact ih offset h2
    · have hmod : (offset + u16 c.elem_count) % U16_MOD = offset + c.elem_count := by
        simp only [u16, U16_MOD] at h ⊢
        omega
      have h2 : offset + c.elem_count + (elemCounts rest).sum < U16_MOD := by
        simp only [elemCounts]; omega
      rw [drawLoop_cons_nonzero _ _ _ hc, translated_cons_nonzero _ _ hc,
        drawOffsets_scissorOf, hmod]
      simp only [drawOffsets, elemCounts, List.map_cons, runningSums]
      rw [ih _ h2]
      rfl

/-- The loop emits no bind. -/
theorem drawLoop_no_bind (cmds : List nk_draw_command) (offset : Nat) :
    (drawLoop cmds offset).countP isBind = 0 := by
  induction cmds generalizing offset with
  | nil => rfl
  | cons c rest ih =>
    by_cases hc : c.elem_count = 0
    · rw [drawLoop_cons_zero _ _ _ hc]
      exact ih offset
    · rw [drawLoop_cons_nonzero _ _ _ hc]
      have hs : isBind (scissorOf c.clip_rect) = false := by
        unfold scissorOf
        split <;> rfl
      have hd : isBind (Command.DrawInstanced_indexed c.elem_count 1 offset) = false := rfl
      simp only [List.countP_cons, hs, hd, ih]
      rfl

/-- The two commands emitted for a translated command that follows the commands
`pre`: where they are in the output and what they are. -/
theorem draw_at_split (d : Data) (pre post : List nk_draw_command) (c : nk_draw_command)
    (hsplit : d.drawCommands = pre ++ c :: post) (hc : c.elem_count ≠ 0) :
    (draw d)[1 + 2 * (translated pre).length]? = some (scissorOf c.clip_rect) ∧
    (draw d)[2 + 2 * (translated pre).length]?
      = some (Command.DrawInstanced_indexed c.elem_count 1 ((elemCounts pre).sum % U16_MOD)) := by
  have h0 : (0 : Nat) < U16_MOD := by decide
  have hloop : drawLoop d.drawCommands 0
      = drawLoop pre 0 ++ (scissorOf c.clip_rect ::
          Command.DrawInstanced_indexed c.elem_count 1 ((elemCounts pre).sum % U16_MOD) ::
          drawLoop post (((elemCounts pre).sum % U16_MOD + u16 c.elem_count) % U16_MOD)) := by
    rw [hsplit, drawLoop_append pre (c :: post) 0 h0, drawLoop_cons_nonzero _ _ _ hc,
      Nat.zero_add]
  have hlen := drawLoop_length pre 0
  unfold draw
  rw [hloop]
  constructor
  · rw [show 1 + 2 * (translated pre).length = (2 * (translated pre).length) + 1 by omega,
      List.getElem?_cons_succ, List.getElem?_append_right (by omega)]
    simp [hlen]
  · rw [show 2 + 2 * (translated pre).length = (2 * (translated pre).length + 1) + 1 by omega,
      List.getElem?_cons_succ, List.getElem?_append_right (by omega)]
    simp [hlen]

/-- Truncating each count to 16 bits before adding does not change the sum modulo `2 ^ 16`. -/
theorem sum_map_u16_mod (counts : List Nat) :
    (counts.map u16).sum % U16_MOD = counts.sum % U16_MOD := by
  induction counts with
  | nil => rfl
  | cons c rest ih =>
    simp only [List.map_cons, List.sum_cons, u16, U16_MOD] at ih ⊢
    omega

/-! ## Lemmas: float to integer conversion -/

/-- The machine conversion of a finite `float` is truncation toward zero. -/
theorem truncToInt_eq_trunc (q : ℚ) : truncToInt q = trunc q := by
  unfold truncToInt trunc
  have hden : (0 : Int) ≤ (q.den : Int) := Int.ofNat_nonneg _
  split
  · next h =>
    rw [Rat.floor_def, Int.tdiv_eq_ediv (Rat.num_nonneg.mpr h) hden]
  · next h =>
    have hneg : 0 ≤ -q := by linarith
    have hnum : 0 ≤ (-q).num := Rat.num_nonneg.mpr hneg
    have hfl : ⌊-q⌋ = (-q).num / ((-q).den : Int) := Rat.floor_def
    rw [← Int.tdiv_eq_ediv hnum (Int.ofNat_nonneg _)] at hfl
    rw [Rat.neg_num, Rat.neg_den, Int.neg_tdiv] at hfl
    have hc : ⌈q⌉ = -⌊-q⌋ := by rw [Int.floor_neg]; simp
    rw [hc, hfl]; simp

/-- The cast `u32(f)` of a value whose truncation fits `u32`. -/
theorem u32_eq_trunc (q : ℚ) (h0 : 0 ≤ trunc q) (h1 : trunc q < 2 ^ 32) :
    u32 q = (trunc q).toNat := by
  unfold u32
  rw [truncToInt_eq_trunc, Int.emod_eq_of_lt h0 h1]

/-- The cast `i32(f)` of a value whose truncation fits `i32`. -/
theorem i32_eq_trunc (q : ℚ) (h0 : -2 ^ 31 ≤ trunc q) (h1 : trunc q < 2 ^ 31) :
    i32 q = trunc q := by
  unfold i32
  rw [truncToInt_eq_trunc, Int.bmod_def]
  norm_num
  omega

/-! ## Theorems: draw translation -/

/-- C10: `draw` emits the bind of the primitive buffer first, and only there, and then, for every
command with a non-zero element count, in list order, one scissor command
followed by one indexed draw: the output has `1 + 2 * n` commands for `n` such
commands, and the pair of a command preceded by the commands `pre` stands right
after the pairs of the translated commands of `pre`. The draw carries the sum of
the counts of all commands of `pre` modulo `2 ^ 16`, which is also the sum of the
counts truncated to 16 bits modulo `2 ^ 16`, and is the exact sum whenever that
sum is at most 65535. -/
theorem draw_emits_bind_then_pairs (d : Data) :
    (draw d).length = 1 + 2 * (translated d.drawCommands).length ∧
    (draw d)[0]? = some (Command.BindPrimitiveBuffer d.primitiveBuffer) ∧
    (draw d).countP isBind = 1 ∧
    (∀ (pre post : List nk_draw_command) (c : nk_draw_command),
      d.drawCommands = pre ++ c :: post → c.elem_count ≠ 0 →
      (draw d)[1 + 2 * (translated pre).length]? = some (scissorOf c.clip_rect) ∧
      (draw d)[2 + 2 * (translated pre).length]?
        = some (Command.DrawInstanced_indexed c.elem_count 1
            ((elemCounts pre).sum % U16_MOD)) ∧
      (elemCounts pre).sum % U16_MOD = ((elemCounts pre).map u16).sum % U16_MOD ∧
      ((elemCounts pre).sum ≤ 65535 →
        (draw d)[2 + 2 * (translated pre).length]?
          = some (Command.DrawInstanced_indexed c.elem_count 1 (elemCounts pre).sum))) := by
  refine ⟨?_, ?_, ?_, ?_⟩
  · simp only [draw, List.length_cons, drawLoop_length]
    omega
  · simp [draw]
  · simp [draw, List.countP_cons, isBind, drawLoop_no_bind]
  · intro pre post c hsplit hc
    have h := draw_at_split d pre post c hsplit hc
    refine ⟨h.1, h.2, (sum_map_u16_mod _).symm, ?_⟩
    intro hle
    have hmod : (elemCounts pre).sum % U16_MOD = (elemCounts pre).sum :=
      Nat.mod_eq_of_lt (by simp only [U16_MOD]; omega)
    rw [h.2, hmod]

/-- C4 (counterexample): for the element counts `40000, 40000, 3` the third draw
carries the offset `14464`, not the running sum `80000`. -/
theorem draw_offsets_wrap :
    drawOffsets (draw wrapData) = [0, 40000, 14464] ∧
    runningSums (elemCounts wrapData.drawCommands) 0 = [0, 40000, 80000] ∧
    drawOffsets (draw wrapData) ≠ runningSums (elemCounts wrapData.drawCommands) 0 := by
  have h1 : drawOffsets (draw wrapData) = [0, 40000, 14464] := by
    simp [draw, wrapData, bigCommand, drawLoop, drawOffsets_scissorOf, drawOffsets, u16, U16_MOD]
  have h2 : runningSums (elemCounts wrapData.drawCommands) 0 = [0, 40000, 80000] := by
    simp [wrapData, bigCommand, elemCounts, runningSums]
  refine ⟨h1, h2, ?_⟩
  rw [h1, h2]
  decide

/-- C4 (amended): a draw emitted for a command preceded by the commands `pre` carries
the exact sum of the element counts of `pre` whenever that sum is at most 65535;
and when all element counts of the list sum to at most 65535, the offsets of the
emitted draws are the running sums `[0, c1, c1 + c2, ...]` of the non-zero counts. -/
theorem draw_offsets_exact_within_u16 (d : Data) (pre post : List nk_draw_command)
    (c : nk_draw_command) (hsplit : d.drawCommands = pre ++ c :: post)
    (hc : c.elem_count ≠ 0) (hsum : (elemCounts pre).sum ≤ 65535) :
    (draw d)[2 + 2 * (translated pre).length]?
      = some (Command.DrawInstanced_indexed c.elem_count 1 (elemCounts pre).sum) ∧
    ((elemCounts d.drawCommands).sum ≤ 65535 →
      drawOffsets (draw d) = runningSums (elemCounts (translated d.drawCommands)) 0) := by
  constructor
  · have hmod : (elemCounts pre).sum % U16_MOD = (elemCounts pre).sum :=
      Nat.mod_eq_of_lt (by simp only [U16_MOD]; omega)
    rw [(draw_at_split d pre post c hsplit hc).2, hmod]
  · intro htotal
    have h := drawOffsets_drawLoop_exact d.drawCommands 0 (by simp only [U16_MOD]; omega)
    simpa [draw, drawOffsets] using h

/-- Witness for `draw_offsets_exact_within_u16`: the counts `6, 0, 12`; the draw of the third
command carries the offset `6`. -/
theorem draw_offsets_exact_within_u16_witness :
    (clippedCommand.elem_count ≠ 0 ∧ (elemCounts [firstCommand, skippedCommand]).sum ≤ 65535) ∧
    (draw smallData)[2 + 2 * (translated [firstCommand, skippedCommand]).length]?
      = some (Command.DrawInstanced_indexed clippedCommand.elem_count 1
          (elemCounts [firstCommand, skippedCommand]).sum) :=
  ⟨⟨by decide, by decide⟩,
   (draw_offsets_exact_within_u16 smallData [firstCommand, skippedCommand] [] clippedCommand
      rfl (by decide) (by decide)).1⟩

/-- C5: for a command with a non-zero element count, preceded by the commands
`pre`, the scissor command emitted with its draw is `SetScissor()` when the clip
width is exactly 16384; for any other clip width whose truncated width and
height fit `u32` and whose truncated `x` and `y` fit `i32`, it is the scissor of
size `(trunc w, trunc h)` and offset `(trunc x, trunc y)`. -/
theorem draw_scissor_translation (d : Data) (pre post : List nk_draw_command)
    (c : nk_draw_command) (hsplit : d.drawCommands = pre ++ c :: post)
    (hc : c.elem_count ≠ 0) :
    (c.clip_rect.w = 16384 →
      (draw d)[1 + 2 * (translated pre).length]? = some (Command.SetScissor none)) ∧
    (c.clip_rect.w ≠ 16384 →
      0 ≤ trunc c.clip_rect.w → trunc c.clip_rect.w < 2 ^ 32 →
      0 ≤ trunc c.clip_rect.h → trunc c.clip_rect.h < 2 ^ 32 →
      -2 ^ 31 ≤ trunc c.clip_rect.x → trunc c.clip_rect.x < 2 ^ 31 →
      -2 ^ 31 ≤ trunc c.clip_rect.y → trunc c.clip_rect.y < 2 ^ 31 →
      (draw d)[1 + 2 * (translated pre).length]?
        = some (Command.SetScissor (some
            { width := (trunc c.clip_rect.w).toNat, height := (trunc c.clip_rect.h).toNat,
              x := trunc c.clip_rect.x, y := trunc c.clip_rect.y }))) := by
  have h := (draw_at_split d pre post c hsplit hc).1
  constructor
  · intro hw
    rw [h]
    simp [scissorOf, hw]
  · intro hw hw0 hw1 hh0 hh1 hx0 hx1 hy0 hy1
    rw [h]
    simp only [scissorOf, hw, if_false]
    rw [u32_eq_trunc _ hw0 hw1, u32_eq_trunc _ hh0 hh1, i32_eq_trunc _ hx0 hx1,
      i32_eq_trunc _ hy0 hy1]

/-- Witness for `draw_scissor_translation`: the third command of the counts `6, 0, 12` is
clipped to `(50, 50, 300, 350)` and gets exactly that scissor. -/
theorem draw_scissor_translation_witness :
    (clippedCommand.elem_count ≠ 0 ∧ clippedCommand.clip_rect.w ≠ 16384) ∧
    (draw smallData)[1 + 2 * (translated [firstCommand, skippedCommand]).length]?
      = some (Command.SetScissor (some { width := 300, height := 350, x := 50, y := 50 })) := by
  have hw : trunc clippedCommand.clip_rect.w = 300 := by
    norm_num [trunc, clippedCommand]
  have hh : trunc clippedCommand.clip_rect.h = 350 := by
    norm_num [trunc, clippedCommand]
  have hx : trunc clippedCommand.clip_rect.x = 50 := by
    norm_num [trunc, clippedCommand]
  have hy : trunc clippedCommand.clip_rect.y = 50 := by
    norm_num [trunc, clippedCommand]
  have hne : clippedCommand.clip_rect.w ≠ 16384 := by
    norm_num [clippedCommand]
  have h := (draw_scissor_translation smallData [firstCommand, skippedCommand] []
    clippedCommand rfl (by decide)).2 hne
    (by rw [hw]; decide) (by rw [hw]; decide) (by rw [hh]; decide) (by rw [hh]; decide)
    (by rw [hx]; decide) (by rw [hx]; decide) (by rw [hy]; decide) (by rw [hy]; decide)
  rw [hw, hh, hx, hy] at h
  exact ⟨⟨by decide, hne⟩, h⟩

end igx
